import Mathlib

/-!
Verification development for the watchlist-api-python-client repository.

The definitions below are a shallow embedding of the validation, parsing and
response-mapping logic of the client:
  - the timestamp utility of `helpers.py` (`parse_utc_timestamp`,
    `format_utc_timestamp`, `convert_raw_utc_timestamp_to_string`,
    `prepare_timestamp_query_string`, `join_base_url_and_query_string`);
  - the configuration-file validator of `config_sender.py`
    (`validate_header`, `validate_row`,
    `validate_watchlist_configuration_file`) and the response stringifier
    (`stringify_response_summary`);
  - the retrieval-path response mapper of `config_retriever.py`
    (`infer_timestamp_from_retrieved_response`);
  - the credential validation of `scripts/cli.py` (`validate_credentials`).

Python exceptions are modelled with `Except`, Python `None` with `Option`
(`none`), and the dynamically typed summary mapping with an association list
over an explicit value type.
-/

set_option maxRecDepth 8192

namespace WatchlistApiClient

instance {ε α : Type} [DecidableEq ε] [DecidableEq α] : DecidableEq (Except ε α) := fun a b =>
  match a, b with
  | .ok x, .ok y => if h : x = y then isTrue (by rw [h]) else isFalse (by simp [h])
  | .error x, .error y => if h : x = y then isTrue (by rw [h]) else isFalse (by simp [h])
  | .ok _, .error _ => isFalse (by simp)
  | .error _, .ok _ => isFalse (by simp)

/-- Date and time fields of a parsed UTC timestamp, the shallow embedding of a
UTC-tagged `datetime.datetime` value. -/
structure DateTime where
  year : Nat
  month : Nat
  day : Nat
  hour : Nat
  minute : Nat
  second : Nat
deriving DecidableEq, Repr

/-- Numeric value of an ASCII decimal digit character, `none` on any other
character. -/
def digitVal? (c : Char) : Option Nat :=
  if 48 ≤ c.toNat ∧ c.toNat ≤ 57 then some (c.toNat - 48) else none

/-- Value of a two-digit decimal numeral given by its two characters. -/
def twoDigitVal? (a b : Char) : Option Nat := do
  let x ← digitVal? a
  let y ← digitVal? b
  pure (x * 10 + y)

/-- Value of a four-digit decimal numeral given by its four characters. -/
def fourDigitVal? (a b c d : Char) : Option Nat := do
  let x ← digitVal? a
  let y ← digitVal? b
  let z ← digitVal? c
  let w ← digitVal? d
  pure (x * 1000 + y * 100 + z * 10 + w)

/-- Gregorian leap-year rule, as implemented by Python's `datetime` module. -/
def isLeapYear (y : Nat) : Bool :=
  y % 4 = 0 && (y % 100 ≠ 0 || y % 400 = 0)

/-- Number of days of a month in a given year. -/
def daysInMonth (y m : Nat) : Nat :=
  if m = 2 then (if isLeapYear y then 29 else 28)
  else if m = 4 ∨ m = 6 ∨ m = 9 ∨ m = 11 then 30
  else 31

/-- Field ranges under which a `DateTime` denotes a real calendar date and
wall-clock time representable by Python's `datetime` (and printable by
`datetime.strftime`, which requires a four-digit year). -/
def validDateTime (dt : DateTime) : Prop :=
  1000 ≤ dt.year ∧ dt.year ≤ 9999 ∧ 1 ≤ dt.month ∧ dt.month ≤ 12 ∧
  1 ≤ dt.day ∧ dt.day ≤ daysInMonth dt.year dt.month ∧
  dt.hour ≤ 23 ∧ dt.minute ≤ 59 ∧ dt.second ≤ 59

instance (dt : DateTime) : Decidable (validDateTime dt) := by
  unfold validDateTime
  infer_instance

/-- Validity gate shared by both parsers: an out-of-range field set is a parse
failure, as raised by Python's `datetime` constructor. -/
def guardValid (dt : DateTime) : Option DateTime :=
  if validDateTime dt then some dt else none

/-- Recognizer for the three-letter English month abbreviations. -/
def monthNumber? (l : List Char) : Option Nat :=
  if l = "Jan".data then some 1
  else if l = "Feb".data then some 2
  else if l = "Mar".data then some 3
  else if l = "Apr".data then some 4
  else if l = "May".data then some 5
  else if l = "Jun".data then some 6
  else if l = "Jul".data then some 7
  else if l = "Aug".data then some 8
  else if l = "Sep".data then some 9
  else if l = "Oct".data then some 10
  else if l = "Nov".data then some 11
  else if l = "Dec".data then some 12
  else none

/-- Recognizer for the three-letter English weekday abbreviations. -/
def isWeekdayName (l : List Char) : Bool :=
  l = "Mon".data || l = "Tue".data || l = "Wed".data || l = "Thu".data ||
  l = "Fri".data || l = "Sat".data || l = "Sun".data

/-- Parser for ISO-8601 timestamps of the form `YYYY-MM-DDTHH:MM:SSZ`. -/
def parseIsoTimestamp (l : List Char) : Option DateTime :=
  match l with
  | [y1, y2, y3, y4, a, m1, m2, b, d1, d2, c, h1, h2, e, n1, n2, f, s1, s2, g] =>
    if a = '-' ∧ b = '-' ∧ c = 'T' ∧ e = ':' ∧ f = ':' ∧ g = 'Z' then do
      let y ← fourDigitVal? y1 y2 y3 y4
      let mo ← twoDigitVal? m1 m2
      let d ← twoDigitVal? d1 d2
      let h ← twoDigitVal? h1 h2
      let mi ← twoDigitVal? n1 n2
      let s ← twoDigitVal? s1 s2
      guardValid ⟨y, mo, d, h, mi, s⟩
    else none
  | _ => none

/-- Day-of-month numeral of one or two digits. -/
def dayValue? (l : List Char) : Option Nat :=
  match l with
  | [a] => digitVal? a
  | [a, b] => twoDigitVal? a b
  | _ => none

/-- Parser for RFC-1123-style timestamps of the form
`Wdy, d Mon YYYY HH:MM:SS GMT` (also accepting `UTC` as the zone name). -/
def parseRfcTimestamp (l : List Char) : Option DateTime :=
  match l with
  | a :: b :: c :: d :: e :: rest =>
    if isWeekdayName [a, b, c] ∧ d = ',' ∧ e = ' ' then
      match dayValue? (rest.takeWhile fun ch => (digitVal? ch).isSome),
          rest.dropWhile fun ch => (digitVal? ch).isSome with
      | some day, sp1 :: m1 :: m2 :: m3 :: sp2 :: y1 :: y2 :: y3 :: y4 :: sp3 ::
          h1 :: h2 :: c1 :: n1 :: n2 :: c2 :: s1 :: s2 :: tzRest =>
        if sp1 = ' ' ∧ sp2 = ' ' ∧ sp3 = ' ' ∧ c1 = ':' ∧ c2 = ':' ∧
            (tzRest = " GMT".data ∨ tzRest = " UTC".data) then do
          let mo ← monthNumber? [m1, m2, m3]
          let y ← fourDigitVal? y1 y2 y3 y4
          let h ← twoDigitVal? h1 h2
          let mi ← twoDigitVal? n1 n2
          let s ← twoDigitVal? s1 s2
          guardValid ⟨y, mo, day, h, mi, s⟩
        else none
      | _, _ => none
    else none
  | _ => none

/-- Modelled from the spec: `helpers.parse_utc_timestamp` delegates to
`dateutil.parser.parse` (an external library, not part of this repository) and
then forces the UTC zone. Per the spec it "accepts both RFC-1123-style strings
(`Wed, 18 Nov 2020 15:23:52 GMT`) and ISO-8601 strings
(`2020-11-18T15:23:52Z`); fails with a ParseError when the string matches
neither recognized grammar", and the "result is always tagged UTC regardless of
any offset embedded in the input". The model recognizes exactly these two
grammars and returns the wall-clock fields, the zone being implicitly UTC. -/
def parse_utc_timestamp (raw : String) : Option DateTime :=
  match parseIsoTimestamp raw.data with
  | some dt => some dt
  | none => parseRfcTimestamp raw.data

/-- Default value of the `date_format` parameter of `format_utc_timestamp` and
`convert_raw_utc_timestamp_to_string`. -/
def defaultDateFormat : String := "%Y-%m-%dT%H:%M:%SZ"

/-- Output pattern used by `infer_timestamp_from_retrieved_response` and
`write_request_summary_to_json`. -/
def compactDateFormat : String := "%Y%m%dT%H%M%SZ"

/-- Character of the decimal digit `n % 10`. -/
def decDigit (n : Nat) : Char := Char.ofNat (48 + n % 10)

/-- Zero-padded two-digit decimal rendering, as produced by the `%m`, `%d`,
`%H`, `%M` and `%S` directives of `strftime`. -/
def twoDigits (n : Nat) : List Char := [decDigit (n / 10), decDigit n]

/-- Four-digit decimal rendering, as produced by the `%Y` directive of
`strftime` on four-digit years. -/
def fourDigits (n : Nat) : List Char :=
  [decDigit (n / 1000), decDigit (n / 100), decDigit (n / 10), decDigit n]

/-- Expansion of a single `strftime` directive character. -/
def strfField (dt : DateTime) (c : Char) : List Char :=
  if c = 'Y' then fourDigits dt.year
  else if c = 'm' then twoDigits dt.month
  else if c = 'd' then twoDigits dt.day
  else if c = 'H' then twoDigits dt.hour
  else if c = 'M' then twoDigits dt.minute
  else if c = 'S' then twoDigits dt.second
  else if c = '%' then ['%']
  else ['%', c]

/-- Interpreter for `strftime` patterns over the directives the repository
uses: a `%` introduces a directive, every other character is literal. -/
def strftimeChars (dt : DateTime) : List Char → List Char
  | [] => []
  | c :: rest =>
    if c = '%' then
      match rest with
      | [] => ['%']
      | d :: rest2 => strfField dt d ++ strftimeChars dt rest2
    else c :: strftimeChars dt rest

/-- Embedding of `helpers.format_utc_timestamp`: renders the instant with
`datetime.datetime.strftime` under the caller-supplied pattern. -/
def format_utc_timestamp (utc_timestamp : DateTime) (date_format : String) : String :=
  String.mk (strftimeChars utc_timestamp date_format.data)

/-- Embedding of `helpers.convert_raw_utc_timestamp_to_string`: the composition
of `parse_utc_timestamp` and `format_utc_timestamp`; `none` models the
propagated parse failure. -/
def convert_raw_utc_timestamp_to_string (raw : String) (date_format : String) :
    Option String :=
  (parse_utc_timestamp raw).map fun dt => format_utc_timestamp dt date_format

/-- Canonical ISO-8601 UTC rendering `YYYY-MM-DDTHH:MM:SSZ` of an instant,
written from the spec's description of the default output format. -/
def specIsoTimestamp (dt : DateTime) : String :=
  String.mk (fourDigits dt.year ++ '-' ::
    (twoDigits dt.month ++ '-' ::
      (twoDigits dt.day ++ 'T' ::
        (twoDigits dt.hour ++ ':' ::
          (twoDigits dt.minute ++ ':' ::
            (twoDigits dt.second ++ ['Z']))))))

/-- Compact rendering `YYYYMMDDTHHMMSSZ` of an instant, written from the spec's
description of the timestamp attached to retrieved configurations. -/
def specCompactTimestamp (dt : DateTime) : String :=
  String.mk (fourDigits dt.year ++
    (twoDigits dt.month ++
      (twoDigits dt.day ++ 'T' ::
        (twoDigits dt.hour ++
          (twoDigits dt.minute ++
            (twoDigits dt.second ++ ['Z']))))))

/-- Characters that `urllib.parse.quote` never escapes: ASCII letters, digits
and `_.-~`. -/
def isUrlSafeChar (c : Char) : Bool :=
  decide ((65 ≤ c.toNat ∧ c.toNat ≤ 90) ∨ (97 ≤ c.toNat ∧ c.toNat ≤ 122) ∨
    (48 ≤ c.toNat ∧ c.toNat ≤ 57) ∨ c = '_' ∨ c = '.' ∨ c = '-' ∨ c = '~')

/-- Uppercase hexadecimal digit character of `n % 16`. -/
def hexUpperDigit (n : Nat) : Char :=
  if n % 16 < 10 then Char.ofNat (48 + n % 16) else Char.ofNat (55 + n % 16)

/-- Percent-encoding `%XY` of one byte, with uppercase hexadecimal digits as
produced by `urllib.parse.quote`. -/
def percentEncodeByte (n : Nat) : List Char :=
  ['%', hexUpperDigit (n / 16), hexUpperDigit n]

/-- Encoding of one character under `urllib.parse.quote_plus` with an empty
safe set: safe characters pass through, a space becomes `+`, anything else is
percent-encoded byte by byte over its UTF-8 encoding. -/
def quotePlusChar (c : Char) : List Char :=
  if isUrlSafeChar c then [c]
  else if c = ' ' then ['+']
  else if c.toNat < 128 then percentEncodeByte c.toNat
  else ((String.singleton c).toUTF8.toList.map fun b => percentEncodeByte b.toNat).flatten

/-- Encoding of a string under `urllib.parse.quote_plus`. -/
def quotePlus (s : String) : String :=
  String.mk (s.data.map quotePlusChar).flatten

/-- Embedding of `urllib.parse.urlencode` on the one-entry mapping the code
passes: the encoded key, `=`, and the encoded value. -/
def pyUrlencodeSingle (key value : String) : String :=
  quotePlus key ++ "=" ++ quotePlus value

/-- Embedding of Python's `str.replace("%3A", ":")`: replaces every
non-overlapping occurrence of `%3A`, scanning left to right. -/
def pyReplace3A : List Char → List Char
  | '%' :: '3' :: 'A' :: rest => ':' :: pyReplace3A rest
  | c :: rest => c :: pyReplace3A rest
  | [] => []

/-- Embedding of `helpers.prepare_timestamp_query_string`: URL-encodes the
one-entry mapping from `dateTime` to the timestamp and then undoes the
percent-encoding of colons. -/
def prepare_timestamp_query_string (iso_formatted_utc_timestamp : String) : String :=
  String.mk (pyReplace3A (pyUrlencodeSingle "dateTime" iso_formatted_utc_timestamp).data)

/-- Embedding of `helpers.join_base_url_and_query_string`: strips one trailing
slash from the base URL, then appends `?` and the query string. -/
def join_base_url_and_query_string (base_url query_string : String) : String :=
  if base_url.data.getLast? = some '/' then
    String.mk base_url.data.dropLast ++ "?" ++ query_string
  else base_url ++ "?" ++ query_string

/-- Characters an ISO-8601 UTC timestamp string is built from. -/
def isIsoTimestampChar (c : Char) : Bool :=
  decide ((48 ≤ c.toNat ∧ c.toNat ≤ 57) ∨ c = '-' ∨ c = 'T' ∨ c = ':' ∨ c = 'Z')

/-- Symbol alphabet of the row pattern
`[A-Z0-9\\+;()!*\-.:/$@&_%#]` of `config_sender.validate_row`: uppercase
letters, digits, and the listed punctuation (including the backslash). -/
def isSymbolChar (c : Char) : Bool :=
  decide ((65 ≤ c.toNat ∧ c.toNat ≤ 90) ∨ (48 ≤ c.toNat ∧ c.toNat ≤ 57) ∨
    c = '\\' ∨ c = '+' ∨ c = ';' ∨ c = '(' ∨ c = ')' ∨ c = '!' ∨ c = '*' ∨
    c = '-' ∨ c = '.' ∨ c = ':' ∨ c = '/' ∨ c = '$' ∨ c = '@' ∨ c = '&' ∨
    c = '_' ∨ c = '%' ∨ c = '#')

/-- ASCII decimal digit test, the `[0-9]` class of the row pattern. -/
def isAsciiDigit (c : Char) : Bool := decide (48 ≤ c.toNat ∧ c.toNat ≤ 57)

/-- Core of the header pattern `^sourceId,RTSsymbol$`: the whole input equals
the literal header. -/
def headerCoreMatch (l : List Char) : Bool :=
  decide (l = "sourceId,RTSsymbol".data)

/-- Core of the row pattern `^[0-9]{3,4},[A-Z0-9\\+;()!*\-.:/$@&_%#]+$`: a
three-or-four-digit run, a comma, and a nonempty run of symbol characters
spanning the whole input. -/
def rowCoreMatch (l : List Char) : Bool :=
  (decide ((l.takeWhile isAsciiDigit).length = 3 ∨
    (l.takeWhile isAsciiDigit).length = 4)) &&
  match l.dropWhile isAsciiDigit with
  | ',' :: tail => !tail.isEmpty && tail.all isSymbolChar
  | _ => false

/-- Anchored-match semantics of Python's `re.match` with a `^...$` pattern: the
`$` anchor matches at the end of the string or just before a newline at the end
of the string, so a single trailing newline is also accepted. -/
def pyAnchoredMatch (core : List Char → Bool) (l : List Char) : Bool :=
  core l || ((decide (l.getLast? = some '\n')) && core l.dropLast)

/-- Embedding of `config_sender.validate_header`; the `ImproperFileFormat`
exception becomes the error branch carrying the exception's message. -/
def validate_header (header : String) : Except String Unit :=
  if pyAnchoredMatch headerCoreMatch header.data then .ok ()
  else .error "Improperly formatted header"

/-- Embedding of `config_sender.validate_row`; the `ImproperFileFormat`
exception becomes the error branch carrying the exception's message with the
row index. -/
def validate_row (row : String) (row_index : Nat) : Except String Unit :=
  if pyAnchoredMatch rowCoreMatch row.data then .ok ()
  else .error ("Line " ++ toString row_index ++ " - Improperly formatted")

/-- Data rows of the configuration file, validated from index `i` upward; the
recursion of the `enumerate` loop of
`config_sender.validate_watchlist_configuration_file` over non-header rows. -/
def validateRowsFrom (i : Nat) : List (List String) → Except String Unit
  | [] => .ok ()
  | r :: rest =>
    match validate_row (String.intercalate "," r) i with
    | .ok _ => validateRowsFrom (i + 1) rest
    | .error e => .error e

/-- Embedding of `config_sender.validate_watchlist_configuration_file` on the
file already read as delimited rows (each row a list of fields, as produced by
`csv.reader`): row 0 goes through `validate_header`, every later row through
`validate_row` with its enumeration index, and the first raised exception
stops the loop. -/
def validate_watchlist_configuration_file (rows : List (List String)) :
    Except String Unit :=
  match rows with
  | [] => .ok ()
  | hd :: rest =>
    match validate_header (String.intercalate "," hd) with
    | .ok _ => validateRowsFrom 1 rest
    | .error e => .error e

/-- Value held under one key of the parsed JSON request summary: an integer
count or a sequence of source-ID strings. -/
inductive PyVal where
  | int (n : Int)
  | strs (l : List String)
deriving DecidableEq, Repr

/-- The summary mapping of a submission response, a finite mapping from key
strings to values. -/
def SummaryMap : Type := List (String × PyVal)

instance : DecidableEq SummaryMap := by
  unfold SummaryMap
  infer_instance

/-- Lookup in the summary mapping; `none` models the `None` that Python's
`dict.get` yields on an absent key. -/
def sGet : SummaryMap → String → Option PyVal
  | [], _ => none
  | (k, v) :: rest, key => if k = key then some v else sGet rest key

/-- Embedding of the `RequestSummary` named tuple of `data_structures.py`. -/
structure RequestSummary where
  submission_time : String
  summary : SummaryMap
deriving DecidableEq

/-- Rendering of a looked-up summary value inside an f-string: Python shows
`None` for an absent key, the decimal numeral for an integer, and the list
display for a sequence of strings. -/
def renderOpt : Option PyVal → String
  | none => "None"
  | some (.int n) => toString n
  | some (.strs l) =>
    "[" ++ String.intercalate ", " (l.map fun s => "'" ++ s ++ "'") ++ "]"

/-- Truth value of the Python comparison `summary.get(key) != 0`: only the
integer `0` itself compares equal to `0`; `None` and lists are unequal to
`0`. -/
def pyNeZero : Option PyVal → Bool
  | some (.int n) => decide (n ≠ 0)
  | _ => true

/-- First block of `stringify_response_summary`: the submission time and the
four count lines, in the fixed order created, updated, failed, deactivated. -/
def highLevelSummary (rs : RequestSummary) : String :=
  rs.submission_time ++ "\n\nActions performed as a result of the request:\n  - " ++
  renderOpt (sGet rs.summary "nbCreated") ++ " new sources have been activated\n  - " ++
  renderOpt (sGet rs.summary "nbUpdated") ++ " existing sources have been updated\n  - " ++
  renderOpt (sGet rs.summary "nbFailed") ++ " sources have failed\n  - " ++
  renderOpt (sGet rs.summary "nbDeactivated") ++ " existing sources have been deactivated\n\n"

/-- One conditional block of `stringify_response_summary`: when the count under
`countKey` is not `0`, the source IDs under `idKey` are joined with `", "`
after the label; joining anything but a list of strings raises a `TypeError`,
modelled by the error branch. When the count is `0` the block contributes
nothing. -/
def categoryChunk (m : SummaryMap) (countKey idKey label : String) :
    Except String String :=
  if pyNeZero (sGet m countKey) then
    match sGet m idKey with
    | some (.strs l) => .ok (label ++ String.intercalate ", " l ++ "\n")
    | _ => .error "TypeError: can only join an iterable of strings"
  else .ok ""

/-- Embedding of `config_sender.stringify_response_summary`: the high-level
count block followed by the four conditional source-ID blocks, in the fixed
order created, updated, failed, deactivated; the first raised `TypeError`
aborts the rendering. -/
def stringify_response_summary (request_summary : RequestSummary) :
    Except String String :=
  match categoryChunk request_summary.summary "nbCreated" "created"
      "The following sources have been activated: " with
  | .error e => .error e
  | .ok createdPart =>
    match categoryChunk request_summary.summary "nbUpdated" "updated"
        "The following sources have been updated: " with
    | .error e => .error e
    | .ok updatedPart =>
      match categoryChunk request_summary.summary "nbFailed" "failed"
          "The following sources have failed: " with
      | .error e => .error e
      | .ok failedPart =>
        match categoryChunk request_summary.summary "nbDeactivated" "deactivated"
            "The following sources have been deactivated: " with
        | .error e => .error e
        | .ok deactivatedPart =>
          .ok (highLevelSummary request_summary ++ createdPart ++ updatedPart ++
            failedPart ++ deactivatedPart)

/-- The parts of an HTTP GET response that
`infer_timestamp_from_retrieved_response` examines: the URL of the request
that produced the response, and the response's `Date` header value. -/
structure HttpResponse where
  request_url : String
  date_header : String
deriving DecidableEq

/-- Query component extracted by `urllib.parse.urlparse`: everything after the
first `?` of the part of the URL that precedes the first `#`. -/
def pyUrlparseQuery (url : String) : String :=
  match (url.data.takeWhile fun c => c ≠ '#').dropWhile fun c => c ≠ '?' with
  | [] => ""
  | _ :: tail => String.mk tail

/-- Embedding of Python's `str.split` on a one-character separator. -/
def splitOnChar (sep : Char) : List Char → List (List Char)
  | [] => [[]]
  | c :: rest =>
    if c = sep then [] :: splitOnChar sep rest
    else
      match splitOnChar sep rest with
      | hd :: tl => (c :: hd) :: tl
      | [] => [[c]]

/-- The segments of Python's `query.split("=")`, as strings. -/
def pySplitEq (query : String) : List String :=
  (splitOnChar '=' query.data).map String.mk

/-- Embedding of `config_retriever.infer_timestamp_from_retrieved_response`:
with an empty request query the `Date` header is converted to the compact
pattern; otherwise the second `=`-split segment of the query is converted
instead. `none` models a raised `IndexError` or parse failure. -/
def infer_timestamp_from_retrieved_response (response : HttpResponse) :
    Option String :=
  if pyUrlparseQuery response.request_url = "" then
    convert_raw_utc_timestamp_to_string response.date_header compactDateFormat
  else
    match (pySplitEq (pyUrlparseQuery response.request_url)).get? 1 with
    | some v => convert_raw_utc_timestamp_to_string v compactDateFormat
    | none => none

/-- A Python value passed as one credential component: `None`, a string, or a
value of any other type. -/
inductive PyCred where
  | pyNone
  | pyStr (s : String)
  | pyOther
deriving DecidableEq, Repr

/-- The two exception classes of `scripts/cli.py`, with the message carried by
`MissingOnyxCredentialsError`. -/
inductive CredentialError where
  | missingCredentials (msg : String)
  | invalidCredentialType
deriving DecidableEq, Repr

/-- Truth value of the Python test `type(credential) is str`. -/
def isPyStr : PyCred → Bool
  | .pyStr _ => true
  | _ => false

/-- Embedding of `cli.validate_credentials_type`: raises
`InvalidOnyxCredentialTypeError` when either component is not a string. -/
def validate_credentials_type (username password : PyCred) :
    Except CredentialError Unit :=
  if ¬ isPyStr username ∨ ¬ isPyStr password then .error .invalidCredentialType
  else .ok ()

/-- Embedding of `cli.validate_credentials_presence`: raises
`MissingOnyxCredentialsError` naming the absent components when either is
`None`. -/
def validate_credentials_presence (username password : PyCred) :
    Except CredentialError Unit :=
  if username = .pyNone ∧ password = .pyNone then
    .error (.missingCredentials "Missing username and password")
  else if username = .pyNone then .error (.missingCredentials "Missing username")
  else if password = .pyNone then .error (.missingCredentials "Missing password")
  else .ok ()

/-- Embedding of `cli.validate_credentials`: the presence check runs first (its
`None` return is falsy, so the type check always follows a successful presence
check), and a raised exception propagates. -/
def validate_credentials (username password : PyCred) :
    Except CredentialError Unit :=
  match validate_credentials_presence username password with
  | .ok _ => validate_credentials_type username password
  | .error e => .error e

/-- Claim-side shape of a well-formed configuration row, over its characters:
a three-or-four-digit numeric source id, a comma, and a nonempty symbol drawn
from the allowed alphabet, with nothing else before or after. -/
def RowSpecChars (l : List Char) : Prop :=
  ∃ ds sym : List Char, l = ds ++ ',' :: sym ∧
    (ds.length = 3 ∨ ds.length = 4) ∧ (∀ c ∈ ds, isAsciiDigit c) ∧
    sym ≠ [] ∧ (∀ c ∈ sym, isSymbolChar c)

/-- Claim-side shape of a well-formed configuration row, as a string. -/
def RowSpec (row : String) : Prop := RowSpecChars row.data

/-- Claim-side per-index check of the configuration file: row 0 as the header,
every row `k ≥ 1` as a data row carrying its index. -/
def fileCheckAt (rows : List (List String)) (k : Nat) : Except String Unit :=
  if k = 0 then validate_header (String.intercalate "," (rows.getD 0 []))
  else validate_row (String.intercalate "," (rows.getD k [])) k

/-- Claim-side rendering of a well-shaped request summary: the submission
time, the four count lines in the fixed order created, updated, failed,
deactivated, then one source-ID line per category with a nonzero count, the
IDs joined by a comma and a space. -/
def specSummaryText (t : String) (c u f d : Int) (lc lu lf ld : List String) :
    String :=
  t ++ "\n\nActions performed as a result of the request:\n  - " ++
  toString c ++ " new sources have been activated\n  - " ++
  toString u ++ " existing sources have been updated\n  - " ++
  toString f ++ " sources have failed\n  - " ++
  toString d ++ " existing sources have been deactivated\n\n" ++
  (if c ≠ 0 then
    "The following sources have been activated: " ++
      String.intercalate ", " lc ++ "\n"
   else "") ++
  (if u ≠ 0 then
    "The following sources have been updated: " ++
      String.intercalate ", " lu ++ "\n"
   else "") ++
  (if f ≠ 0 then
    "The following sources have failed: " ++
      String.intercalate ", " lf ++ "\n"
   else "") ++
  (if d ≠ 0 then
    "The following sources have been deactivated: " ++
      String.intercalate ", " ld ++ "\n"
   else "")

theorem pyAnchoredMatch_iff (core : List Char → Bool) (l : List Char) :
    pyAnchoredMatch core l = true ↔
      core l = true ∨ ∃ l2, l = l2 ++ ['\n'] ∧ core l2 = true := by
  unfold pyAnchoredMatch
  simp only [Bool.or_eq_true, Bool.and_eq_true, decide_eq_true_eq]
  apply or_congr Iff.rfl
  constructor
  · rintro ⟨hlast, hcore⟩
    induction l using List.reverseRecOn with
    | nil => simp at hlast
    | append_singleton l2 a _ =>
      rw [List.getLast?_concat] at hlast
      rw [Option.some.injEq] at hlast
      subst hlast
      exact ⟨l2, rfl, by simpa [List.dropLast_concat] using hcore⟩
  · rintro ⟨l2, rfl, hcore⟩
    exact ⟨by rw [List.getLast?_concat], by simpa [List.dropLast_concat] using hcore⟩

theorem validate_row_ok_iff (row : String) (i : Nat) :
    validate_row row i = .ok () ↔ pyAnchoredMatch rowCoreMatch row.data = true := by
  unfold validate_row
  split
  · next h => simp [h]
  · next h => simp [h]

theorem validate_header_ok_iff (header : String) :
    validate_header header = .ok () ↔
      pyAnchoredMatch headerCoreMatch header.data = true := by
  unfold validate_header
  split
  · next h => simp [h]
  · next h => simp [h]

theorem takeWhile_prefix_decomp {p : Char → Bool} (ds : List Char) (x : Char)
    (sym : List Char) (hds : ∀ c ∈ ds, p c = true) (hx : p x = false) :
    (ds ++ x :: sym).takeWhile p = ds ∧ (ds ++ x :: sym).dropWhile p = x :: sym := by
  induction ds with
  | nil => simp [List.takeWhile_cons, List.dropWhile_cons, hx]
  | cons a t ih =>
    have ha : p a = true := hds a (by simp)
    obtain ⟨h1, h2⟩ := ih fun c hc => hds c (by simp [hc])
    simp [List.takeWhile_cons, List.dropWhile_cons, ha, h1, h2]

theorem rowCoreMatch_iff (l : List Char) : rowCoreMatch l = true ↔ RowSpecChars l := by
  constructor
  · intro h
    unfold rowCoreMatch at h
    rw [Bool.and_eq_true, decide_eq_true_eq] at h
    obtain ⟨hlen, hmatch⟩ := h
    split at hmatch
    · next tail heq =>
      rw [Bool.and_eq_true] at hmatch
      obtain ⟨hne, hall⟩ := hmatch
      refine ⟨l.takeWhile isAsciiDigit, tail, ?_, hlen,
        fun c hc => List.mem_takeWhile_imp hc, ?_, ?_⟩
      · conv_lhs => rw [← List.takeWhile_append_dropWhile isAsciiDigit l]
        rw [heq]
      · simpa using hne
      · simpa [List.all_eq_true] using hall
    · exact absurd hmatch (by simp)
  · rintro ⟨ds, sym, rfl, hlen, hdig, hne, hsym⟩
    unfold rowCoreMatch
    obtain ⟨ht, hdrop⟩ :=
      takeWhile_prefix_decomp ds ',' sym hdig (by decide)
    rw [Bool.and_eq_true, decide_eq_true_eq]
    refine ⟨by rw [ht]; exact hlen, ?_⟩
    rw [hdrop]
    show (!sym.isEmpty && sym.all isSymbolChar) = true
    rw [Bool.and_eq_true]
    exact ⟨by simpa using hne, by simpa [List.all_eq_true] using hsym⟩

/-- C2 (amended): `validate_row` succeeds exactly on the strings of the form
`<3-or-4-digit id>,<nonempty symbol over the allowed alphabet>`, either bare
or followed by one trailing newline — the `$` anchor of Python's `re.match`
also matches just before a newline that ends the string. -/
theorem validate_row_accepts_iff (row : String) (i : Nat) :
    validate_row row i = .ok () ↔
      RowSpec row ∨ ∃ r2 : String, row = r2 ++ "\n" ∧ RowSpec r2 := by
  rw [validate_row_ok_iff, pyAnchoredMatch_iff]
  apply or_congr (rowCoreMatch_iff row.data)
  constructor
  · rintro ⟨l2, hdata, hcore⟩
    refine ⟨String.mk l2, ?_, (rowCoreMatch_iff l2).mp hcore⟩
    apply String.ext
    rw [String.data_append]
    exact hdata
  · rintro ⟨r2, rfl, hspec⟩
    refine ⟨r2.data, ?_, (rowCoreMatch_iff r2.data).mpr hspec⟩
    rw [String.data_append]

/-- C2 (counterexample): `validate_row` accepts `"207,A\n"`, a row that does
not consist only of an id, a comma and a symbol — it carries a trailing
newline. -/
theorem validate_row_trailing_newline_counterexample :
    validate_row "207,A\n" 1 = .ok () ∧ ¬ RowSpec "207,A\n" := by
  refine ⟨by decide, fun h => ?_⟩
  exact absurd ((rowCoreMatch_iff "207,A\n".data).mpr h) (by decide)

/-- C3: `validate_row` accepts `"207,F:FDAX\Z20"` (backslash allowed in the
symbol) and rejects `"207, F:FDAX\Z20"` (space after the comma) and
`"207,F:FDAX??Z20"` (question marks) with the indexed ImproperFormat
message. -/
theorem validate_row_examples (i : Nat) :
    validate_row "207,F:FDAX\\Z20" i = .ok () ∧
    validate_row "207, F:FDAX\\Z20" i =
      .error ("Line " ++ toString i ++ " - Improperly formatted") ∧
    validate_row "207,F:FDAX??Z20" i =
      .error ("Line " ++ toString i ++ " - Improperly formatted") := by
  refine ⟨?_, ?_, ?_⟩
  · simp [validate_row,
      show pyAnchoredMatch rowCoreMatch "207,F:FDAX\\Z20".data = true from by decide]
  · simp [validate_row,
      show pyAnchoredMatch rowCoreMatch "207, F:FDAX\\Z20".data = false from by decide]
  · simp [validate_row,
      show pyAnchoredMatch rowCoreMatch "207,F:FDAX??Z20".data = false from by decide]

theorem headerAnchored_iff (l : List Char) :
    pyAnchoredMatch headerCoreMatch l = true ↔
      l = "sourceId,RTSsymbol".data ∨ l = "sourceId,RTSsymbol\n".data := by
  rw [pyAnchoredMatch_iff]
  unfold headerCoreMatch
  simp only [decide_eq_true_eq]
  apply or_congr Iff.rfl
  constructor
  · rintro ⟨l2, rfl, rfl⟩
    decide
  · rintro rfl
    exact ⟨"sourceId,RTSsymbol".data, by decide, rfl⟩

/-- C4 (amended): `validate_header` succeeds exactly on the header
`"sourceId,RTSsymbol"` and on that header followed by one trailing newline —
the `$` anchor of Python's `re.match` also matches just before a newline that
ends the string; every other string, case variants included, fails with
ImproperFormat. -/
theorem validate_header_accepts_iff :
    (∀ h : String, validate_header h = .ok () ↔
      (h = "sourceId,RTSsymbol" ∨ h = "sourceId,RTSsymbol\n")) ∧
    validate_header "SourceID,RTSSymbol" = .error "Improperly formatted header" := by
  constructor
  · intro h
    rw [validate_header_ok_iff, headerAnchored_iff]
    constructor
    · rintro (h1 | h1)
      · exact Or.inl (String.ext h1)
      · exact Or.inr (String.ext h1)
    · rintro (rfl | rfl)
      · exact Or.inl rfl
      · exact Or.inr rfl
  · decide

/-- C4 (counterexample): `validate_header` accepts the string
`"sourceId,RTSsymbol\n"`, which differs from the exact header
`"sourceId,RTSsymbol"`. -/
theorem validate_header_trailing_newline_counterexample :
    validate_header "sourceId,RTSsymbol\n" = .ok () ∧
      ("sourceId,RTSsymbol\n" : String) ≠ "sourceId,RTSsymbol" := by
  exact ⟨by decide, by decide⟩

/-- C10: credential validation accepts every pair of strings (empty strings
included); a missing-credential error arises exactly when a component is
`None`, naming the absent components; the type error arises, for present
components, exactly when one of them is not a string. -/
theorem validate_credentials_spec :
    (∀ u p : String, validate_credentials (.pyStr u) (.pyStr p) = .ok ()) ∧
    (∀ a b : PyCred,
      (∃ msg, validate_credentials a b = .error (.missingCredentials msg)) ↔
        (a = .pyNone ∨ b = .pyNone)) ∧
    (validate_credentials .pyNone .pyNone =
      .error (.missingCredentials "Missing username and password")) ∧
    (∀ b : PyCred, b ≠ .pyNone →
      validate_credentials .pyNone b =
        .error (.missingCredentials "Missing username")) ∧
    (∀ a : PyCred, a ≠ .pyNone →
      validate_credentials a .pyNone =
        .error (.missingCredentials "Missing password")) ∧
    (∀ a b : PyCred, a ≠ .pyNone → b ≠ .pyNone →
      (validate_credentials a b = .error .invalidCredentialType ↔
        ¬(isPyStr a = true ∧ isPyStr b = true))) ∧
    validate_credentials (.pyStr "") (.pyStr "") = .ok () := by
  refine ⟨?_, ?_, by decide, ?_, ?_, ?_, by decide⟩
  · intro u p
    simp [validate_credentials, validate_credentials_presence,
      validate_credentials_type, isPyStr]
  · intro a b
    rcases a with _ | s | _ <;> rcases b with _ | t | _ <;>
      simp [validate_credentials, validate_credentials_presence,
        validate_credentials_type, isPyStr]
  · intro b hb
    rcases b with _ | t | _ <;>
      simp_all [validate_credentials, validate_credentials_presence,
        validate_credentials_type, isPyStr]
  · intro a ha
    rcases a with _ | s | _ <;>
      simp_all [validate_credentials, validate_credentials_presence,
        validate_credentials_type, isPyStr]
  · intro a b ha hb
    rcases a with _ | s | _ <;> rcases b with _ | t | _ <;>
      simp_all [validate_credentials, validate_credentials_presence,
        validate_credentials_type, isPyStr]

/-- Witness for C10: a present non-string component passes the presence check
and fails the type check. -/
theorem validate_credentials_spec_witness :
    ((.pyOther : PyCred) ≠ .pyNone) ∧
    validate_credentials .pyOther (.pyStr "user") = .error .invalidCredentialType := by
  refine ⟨by decide, ?_⟩
  exact (validate_credentials_spec.2.2.2.2.2.1 .pyOther (.pyStr "user")
    (by decide) (by decide)).mpr (by decide)

theorem fileCheckAt_zero (rows : List (List String)) :
    fileCheckAt rows 0 = validate_header (String.intercalate "," (rows.getD 0 [])) :=
  if_pos rfl

theorem fileCheckAt_succ (rows : List (List String)) (k : Nat) :
    fileCheckAt rows (k + 1) =
      validate_row (String.intercalate "," (rows.getD (k + 1) [])) (k + 1) :=
  if_neg (by omega)

theorem validateRowsFrom_ok_iff (rows : List (List String)) (i : Nat) :
    validateRowsFrom i rows = .ok () ↔
      ∀ j, j < rows.length →
        validate_row (String.intercalate "," (rows.getD j [])) (i + j) = .ok () := by
  induction rows generalizing i with
  | nil => simp [validateRowsFrom]
  | cons r rest ih =>
    cases hv : validate_row (String.intercalate "," r) i with
    | ok u =>
      cases u
      simp only [validateRowsFrom, hv]
      rw [ih (i + 1)]
      constructor
      · intro h j hj
        cases j with
        | zero => simpa using hv
        | succ j2 =>
          have h2 := h j2 (by simp only [List.length_cons] at hj; omega)
          have heq : i + 1 + j2 = i + (j2 + 1) := by omega
          rw [heq] at h2
          simpa [List.getD_cons_succ] using h2
      · intro hall j hj
        have h2 := hall (j + 1) (by simp only [List.length_cons]; omega)
        have heq : i + (j + 1) = i + 1 + j := by omega
        rw [heq] at h2
        simpa [List.getD_cons_succ] using h2
    | error e =>
      simp only [validateRowsFrom, hv]
      constructor
      · intro h
        exact absurd h (by simp)
      · intro hall
        have h0 := hall 0 (by simp)
        rw [Nat.add_zero] at h0
        simp only [List.getD_cons_zero] at h0
        rw [hv] at h0
        exact absurd h0 (by simp)

theorem validateRowsFrom_error_iff (rows : List (List String)) (i : Nat) (e : String) :
    validateRowsFrom i rows = .error e ↔
      ∃ j, j < rows.length ∧
        validate_row (String.intercalate "," (rows.getD j [])) (i + j) = .error e ∧
        ∀ j2, j2 < j →
          validate_row (String.intercalate "," (rows.getD j2 [])) (i + j2) = .ok () := by
  induction rows generalizing i with
  | nil => simp [validateRowsFrom]
  | cons r rest ih =>
    cases hv : validate_row (String.intercalate "," r) i with
    | ok u =>
      cases u
      simp only [validateRowsFrom, hv]
      rw [ih (i + 1)]
      constructor
      · rintro ⟨j, hj, herr, hprev⟩
        refine ⟨j + 1, by simp only [List.length_cons]; omega, ?_, ?_⟩
        · have heq : i + (j + 1) = i + 1 + j := by omega
          rw [heq]
          simpa [List.getD_cons_succ] using herr
        · intro j2 hj2
          cases j2 with
          | zero => simpa using hv
          | succ j3 =>
            have h3 := hprev j3 (by omega)
            have heq : i + 1 + j3 = i + (j3 + 1) := by omega
            rw [heq] at h3
            simpa [List.getD_cons_succ] using h3
      · rintro ⟨j, hj, herr, hprev⟩
        cases j with
        | zero =>
          rw [Nat.add_zero] at herr
          simp only [List.getD_cons_zero] at herr
          rw [hv] at herr
          exact absurd herr (by simp)
        | succ j3 =>
          refine ⟨j3, by simp only [List.length_cons] at hj; omega, ?_, ?_⟩
          · have heq : i + 1 + j3 = i + (j3 + 1) := by omega
            rw [heq]
            simpa [List.getD_cons_succ] using herr
          · intro j2 hj2
            have h2 := hprev (j2 + 1) (by omega)
            have heq : i + (j2 + 1) = i + 1 + j2 := by omega
            rw [heq] at h2
            simpa [List.getD_cons_succ] using h2
    | error e2 =>
      simp only [validateRowsFrom, hv]
      constructor
      · intro h
        rw [Except.error.injEq] at h
        refine ⟨0, by simp, ?_, fun j2 hj2 => absurd hj2 (by omega)⟩
        rw [Nat.add_zero]
        simp only [List.getD_cons_zero]
        rw [hv, h]
      · rintro ⟨j, hj, herr, hprev⟩
        cases j with
        | zero =>
          rw [Nat.add_zero] at herr
          simp only [List.getD_cons_zero] at herr
          rw [hv] at herr
          exact herr
        | succ j3 =>
          have h0 := hprev 0 (by omega)
          rw [Nat.add_zero] at h0
          simp only [List.getD_cons_zero] at h0
          rw [hv] at h0
          exact absurd h0 (by simp)

theorem validateRowsFrom_append_error (rows extra : List (List String)) (i : Nat)
    (e : String) (h : validateRowsFrom i rows = .error e) :
    validateRowsFrom i (rows ++ extra) = .error e := by
  induction rows generalizing i with
  | nil => simp [validateRowsFrom] at h
  | cons r rest ih =>
    rw [List.cons_append]
    cases hv : validate_row (String.intercalate "," r) i with
    | ok u =>
      cases u
      simp only [validateRowsFrom, hv] at h ⊢
      exact ih (i + 1) h
    | error e2 =>
      simp only [validateRowsFrom, hv] at h ⊢
      exact h

/-- C6: the file validator checks row 0 as the header (fields rejoined by
commas) and every row `i ≥ 1` with `validate_row` at index `i` (1-based over
data rows); it succeeds exactly when every per-index check succeeds, an error
is exactly the error of the least failing index, and rows appended after a
failing prefix never change the result. -/
theorem validate_file_spec :
    (∀ rows, validate_watchlist_configuration_file rows = .ok () ↔
      ∀ k, k < rows.length → fileCheckAt rows k = .ok ()) ∧
    (∀ rows e, validate_watchlist_configuration_file rows = .error e ↔
      ∃ k, k < rows.length ∧ fileCheckAt rows k = .error e ∧
        ∀ j, j < k → fileCheckAt rows j = .ok ()) ∧
    (∀ rows extra e, validate_watchlist_configuration_file rows = .error e →
      validate_watchlist_configuration_file (rows ++ extra) = .error e) := by
  refine ⟨?_, ?_, ?_⟩
  · intro rows
    cases rows with
    | nil => simp [validate_watchlist_configuration_file]
    | cons hd rest =>
      cases hh : validate_header (String.intercalate "," hd) with
      | ok u =>
        cases u
        simp only [validate_watchlist_configuration_file, hh]
        rw [validateRowsFrom_ok_iff]
        constructor
        · intro h k hk
          cases k with
          | zero =>
            rw [fileCheckAt_zero]
            simpa [List.getD_cons_zero] using hh
          | succ k2 =>
            rw [fileCheckAt_succ]
            have h2 := h k2 (by simp only [List.length_cons] at hk; omega)
            have heq : 1 + k2 = k2 + 1 := by omega
            rw [heq] at h2
            simpa [List.getD_cons_succ] using h2
        · intro hall j hj
          have h2 := hall (j + 1) (by simp only [List.length_cons]; omega)
          rw [fileCheckAt_succ] at h2
          have heq : 1 + j = j + 1 := by omega
          rw [heq]
          simpa [List.getD_cons_succ] using h2
      | error e2 =>
        simp only [validate_watchlist_configuration_file, hh]
        constructor
        · intro h
          exact absurd h (by simp)
        · intro hall
          have h0 := hall 0 (by simp)
          rw [fileCheckAt_zero] at h0
          simp only [List.getD_cons_zero] at h0
          rw [hh] at h0
          exact absurd h0 (by simp)
  · intro rows e
    cases rows with
    | nil => simp [validate_watchlist_configuration_file]
    | cons hd rest =>
      cases hh : validate_header (String.intercalate "," hd) with
      | ok u =>
        cases u
        simp only [validate_watchlist_configuration_file, hh]
        rw [validateRowsFrom_error_iff]
        constructor
        · rintro ⟨j, hj, herr, hprev⟩
          refine ⟨j + 1, by simp only [List.length_cons]; omega, ?_, ?_⟩
          · rw [fileCheckAt_succ]
            have heq : 1 + j = j + 1 := by omega
            rw [heq] at herr
            simpa [List.getD_cons_succ] using herr
          · intro j2 hj2
            cases j2 with
            | zero =>
              rw [fileCheckAt_zero]
              simpa [List.getD_cons_zero] using hh
            | succ j3 =>
              rw [fileCheckAt_succ]
              have h3 := hprev j3 (by omega)
              have heq : 1 + j3 = j3 + 1 := by omega
              rw [heq] at h3
              simpa [List.getD_cons_succ] using h3
        · rintro ⟨k, hk, herr, hprev⟩
          cases k with
          | zero =>
            rw [fileCheckAt_zero] at herr
            simp only [List.getD_cons_zero] at herr
            rw [hh] at herr
            exact absurd herr (by simp)
          | succ k2 =>
            refine ⟨k2, by simp only [List.length_cons] at hk; omega, ?_, ?_⟩
            · rw [fileCheckAt_succ] at herr
              have heq : 1 + k2 = k2 + 1 := by omega
              rw [heq]
              simpa [List.getD_cons_succ] using herr
            · intro j2 hj2
              have h2 := hprev (j2 + 1) (by omega)
              rw [fileCheckAt_succ] at h2
              have heq : 1 + j2 = j2 + 1 := by omega
              rw [heq]
              simpa [List.getD_cons_succ] using h2
      | error e2 =>
        simp only [validate_watchlist_configuration_file, hh]
        constructor
        · intro h
          rw [Except.error.injEq] at h
          refine ⟨0, by simp, ?_, fun j hj => absurd hj (by omega)⟩
          rw [fileCheckAt_zero]
          simp only [List.getD_cons_zero]
          rw [hh, h]
        · rintro ⟨k, hk, herr, hprev⟩
          cases k with
          | zero =>
            rw [fileCheckAt_zero] at herr
            simp only [List.getD_cons_zero] at herr
            rw [hh] at herr
            exact herr
          | succ k2 =>
            have h0 := hprev 0 (by omega)
            rw [fileCheckAt_zero] at h0
            simp only [List.getD_cons_zero] at h0
            rw [hh] at h0
            exact absurd h0 (by simp)
  · intro rows extra e h
    cases rows with
    | nil => simp [validate_watchlist_configuration_file] at h
    | cons hd rest =>
      rw [List.cons_append]
      cases hh : validate_header (String.intercalate "," hd) with
      | ok u =>
        cases u
        simp only [validate_watchlist_configuration_file, hh] at h ⊢
        exact validateRowsFrom_append_error rest extra 1 e h
      | error e2 =>
        simp only [validate_watchlist_configuration_file, hh] at h ⊢
        exact h

/-- Witness for C6: a file whose second data row would also fail reports only
the first failure, and appending rows after the failing one changes
nothing. -/
theorem validate_file_spec_witness :
    validate_watchlist_configuration_file
      ([["sourceId", "RTSsymbol"], ["2a7", "F"]] ++ [["207", "OK"]]) =
      .error "Line 1 - Improperly formatted" :=
  validate_file_spec.2.2 [["sourceId", "RTSsymbol"], ["2a7", "F"]] [["207", "OK"]]
    "Line 1 - Improperly formatted" (by decide)

theorem pyNeZero_none : pyNeZero none = true := rfl

theorem pyNeZero_strs (l : List String) : pyNeZero (some (.strs l)) = true := rfl

theorem categoryChunk_int (m : SummaryMap) (ck ik lbl : String) (n : Int)
    (l : List String) (hc : sGet m ck = some (.int n))
    (hi : sGet m ik = some (.strs l)) :
    categoryChunk m ck ik lbl =
      .ok (if n ≠ 0 then lbl ++ String.intercalate ", " l ++ "\n" else "") := by
  unfold categoryChunk
  rw [hc, hi]
  by_cases hn : n = 0
  · subst hn
    simp [pyNeZero]
  · simp [pyNeZero, hn]

theorem append_newline_ne_empty (s : String) : s ++ "\n" ≠ "" := by
  intro h
  have h2 := congrArg String.data h
  rw [String.data_append] at h2
  exact absurd h2 (by simp)

/-- C5: on a summary mapping of the expected shape, the stringifier returns
the submission time, the four count lines in the fixed order created,
updated, failed, deactivated, and then one source-ID line per nonzero
category, the IDs joined by a comma and a space. -/
theorem stringify_spec (t : String) (c u f d : Int) (lc lu lf ld : List String)
    (m : SummaryMap)
    (h1 : sGet m "nbCreated" = some (.int c))
    (h2 : sGet m "nbUpdated" = some (.int u))
    (h3 : sGet m "nbFailed" = some (.int f))
    (h4 : sGet m "nbDeactivated" = some (.int d))
    (h5 : sGet m "created" = some (.strs lc))
    (h6 : sGet m "updated" = some (.strs lu))
    (h7 : sGet m "failed" = some (.strs lf))
    (h8 : sGet m "deactivated" = some (.strs ld)) :
    stringify_response_summary ⟨t, m⟩ =
      .ok (specSummaryText t c u f d lc lu lf ld) := by
  unfold stringify_response_summary
  rw [categoryChunk_int m _ _ _ c lc h1 h5, categoryChunk_int m _ _ _ u lu h2 h6,
    categoryChunk_int m _ _ _ f lf h3 h7, categoryChunk_int m _ _ _ d ld h4 h8]
  show Except.ok _ = _
  rw [Except.ok.injEq]
  unfold specSummaryText highLevelSummary
  rw [h1, h2, h3, h4]
  rfl

/-- Witness for C5: the example summary with two created sources and all other
counts zero renders the activated-IDs line and no line for the zero-count
categories. -/
theorem stringify_spec_witness :
    stringify_response_summary
      ⟨"Fri, 20 Nov 2020 11:47:40 GMT",
        [("nbCreated", .int 2), ("nbUpdated", .int 0), ("nbFailed", .int 0),
          ("nbDeactivated", .int 0), ("created", .strs ["676", "680"]),
          ("updated", .strs []), ("failed", .strs []),
          ("deactivated", .strs [])]⟩ =
      .ok (specSummaryText "Fri, 20 Nov 2020 11:47:40 GMT" 2 0 0 0
        ["676", "680"] [] [] []) ∧
    specSummaryText "Fri, 20 Nov 2020 11:47:40 GMT" 2 0 0 0
        ["676", "680"] [] [] [] =
      "Fri, 20 Nov 2020 11:47:40 GMT\n\nActions performed as a result of the request:\n  - 2 new sources have been activated\n  - 0 existing sources have been updated\n  - 0 sources have failed\n  - 0 existing sources have been deactivated\n\nThe following sources have been activated: 676, 680\n" := by
  refine ⟨stringify_spec "Fri, 20 Nov 2020 11:47:40 GMT" 2 0 0 0
    ["676", "680"] [] [] [] _ rfl rfl rfl rfl rfl rfl rfl rfl, by decide⟩

/-- C9: an absent count key is looked up as the absent marker, rendered as
`None` in its count line, and treated as nonzero, so the category's source-ID
line is still attempted (and raises a `TypeError` when the ID key is also
absent) rather than omitted; only a count equal to the integer `0` makes a
category contribute nothing. -/
theorem stringify_absent_count_spec :
    renderOpt none = "None" ∧
    (∀ (t : String) (m : SummaryMap), sGet m "nbCreated" = none →
      ∃ post, highLevelSummary ⟨t, m⟩ =
        t ++ "\n\nActions performed as a result of the request:\n  - " ++
          "None" ++ " new sources have been activated\n  - " ++ post) ∧
    (∀ (t : String) (m : SummaryMap), sGet m "nbCreated" = none →
      sGet m "created" = none →
      stringify_response_summary ⟨t, m⟩ =
        .error "TypeError: can only join an iterable of strings") ∧
    (∀ m : SummaryMap,
      categoryChunk m "nbCreated" "created"
          "The following sources have been activated: " = .ok "" ↔
        sGet m "nbCreated" = some (.int 0)) ∧
    (∀ (m : SummaryMap) (l : List String),
      sGet m "nbCreated" ≠ some (.int 0) → sGet m "created" = some (.strs l) →
      categoryChunk m "nbCreated" "created"
          "The following sources have been activated: " =
        .ok ("The following sources have been activated: " ++
          String.intercalate ", " l ++ "\n")) := by
  refine ⟨rfl, ?_, ?_, ?_, ?_⟩
  · intro t m h
    refine ⟨renderOpt (sGet m "nbUpdated") ++
      " existing sources have been updated\n  - " ++
      renderOpt (sGet m "nbFailed") ++ " sources have failed\n  - " ++
      renderOpt (sGet m "nbDeactivated") ++
      " existing sources have been deactivated\n\n", ?_⟩
    unfold highLevelSummary
    rw [h]
    simp [renderOpt, String.append_assoc]
  · intro t m hc hi
    unfold stringify_response_summary
    have hch : categoryChunk m "nbCreated" "created"
        "The following sources have been activated: " =
        .error "TypeError: can only join an iterable of strings" := by
      unfold categoryChunk
      rw [hc, hi]
      rfl
    rw [hch]
  · intro m
    unfold categoryChunk
    cases hc : sGet m "nbCreated" with
    | none =>
      cases hi : sGet m "created" with
      | none => simp [pyNeZero_none]
      | some v =>
        cases v with
        | int k => simp [pyNeZero_none]
        | strs l2 =>
          rw [if_pos pyNeZero_none]
          show Except.ok _ = _ ↔ _
          rw [Except.ok.injEq]
          constructor
          · intro h
            exact absurd h (append_newline_ne_empty _)
          · intro h
            exact absurd h (by simp)
    | some v =>
      cases v with
      | int n =>
        by_cases hn : n = 0
        · subst hn
          simp [pyNeZero]
        · rw [if_pos (by simp [pyNeZero, hn])]
          cases hi : sGet m "created" with
          | none => simp [hn]
          | some v2 =>
            cases v2 with
            | int k => simp [hn]
            | strs l2 =>
              show Except.ok _ = _ ↔ _
              rw [Except.ok.injEq]
              constructor
              · intro h
                exact absurd h (append_newline_ne_empty _)
              · intro h
                rw [Option.some.injEq, PyVal.int.injEq] at h
                exact absurd h hn
      | strs l3 =>
        rw [if_pos (pyNeZero_strs l3)]
        cases hi : sGet m "created" with
        | none => simp
        | some v2 =>
          cases v2 with
          | int k => simp
          | strs l2 =>
            show Except.ok _ = _ ↔ _
            rw [Except.ok.injEq]
            constructor
            · intro h
              exact absurd h (append_newline_ne_empty _)
            · intro h
              exact absurd h (by simp)
  · intro m l hne hcr
    unfold categoryChunk
    rw [hcr]
    have hb : pyNeZero (sGet m "nbCreated") = true := by
      cases hc : sGet m "nbCreated" with
      | none => rfl
      | some v =>
        cases v with
        | int n =>
          simp only [pyNeZero, decide_eq_true_eq]
          intro h
          exact hne (by rw [hc, h])
        | strs l2 => rfl
    rw [if_pos hb]

/-- Witness for C9: the empty summary mapping has every key absent, so the
created block is attempted and the whole rendering raises the `TypeError`. -/
theorem stringify_absent_count_spec_witness :
    stringify_response_summary ⟨"t", []⟩ =
      .error "TypeError: can only join an iterable of strings" :=
  stringify_absent_count_spec.2.2.1 "t" [] rfl rfl

theorem format_default_eq (dt : DateTime) :
    format_utc_timestamp dt defaultDateFormat = specIsoTimestamp dt := rfl

theorem format_compact_eq (dt : DateTime) :
    format_utc_timestamp dt compactDateFormat = specCompactTimestamp dt := rfl

theorem guardValid_eq_some {a dt : DateTime} (h : guardValid a = some dt) :
    validDateTime dt ∧ a = dt := by
  unfold guardValid at h
  split at h
  · next hv =>
    rw [Option.some.injEq] at h
    subst h
    exact ⟨hv, rfl⟩
  · exact absurd h (by simp)

theorem parseIso_valid {l : List Char} {dt : DateTime}
    (h : parseIsoTimestamp l = some dt) : validDateTime dt := by
  unfold parseIsoTimestamp at h
  split at h
  · split at h
    · simp only [Option.bind_eq_bind, Option.bind_eq_some] at h
      obtain ⟨y, _, h⟩ := h
      obtain ⟨mo, _, h⟩ := h
      obtain ⟨d, _, h⟩ := h
      obtain ⟨hh, _, h⟩ := h
      obtain ⟨mi, _, h⟩ := h
      obtain ⟨s, _, h⟩ := h
      exact (guardValid_eq_some h).1
    · exact absurd h (by simp)
  · exact absurd h (by simp)

theorem parseRfc_valid {l : List Char} {dt : DateTime}
    (h : parseRfcTimestamp l = some dt) : validDateTime dt := by
  unfold parseRfcTimestamp at h
  split at h
  · split at h
    · split at h
      · split at h
        · simp only [Option.bind_eq_bind, Option.bind_eq_some] at h
          obtain ⟨mo, _, h⟩ := h
          obtain ⟨y, _, h⟩ := h
          obtain ⟨hh, _, h⟩ := h
          obtain ⟨mi, _, h⟩ := h
          obtain ⟨s, _, h⟩ := h
          exact (guardValid_eq_some h).1
        · exact absurd h (by simp)
      · exact absurd h (by simp)
    · exact absurd h (by simp)
  · exact absurd h (by simp)

theorem parse_valid {raw : String} {dt : DateTime}
    (h : parse_utc_timestamp raw = some dt) : validDateTime dt := by
  unfold parse_utc_timestamp at h
  split at h
  · next dt2 heq =>
    rw [Option.some.injEq] at h
    subst h
    exact parseIso_valid heq
  · exact parseRfc_valid h

theorem digitVal?_ofNat_lt_ten :
    ∀ k, k < 10 → digitVal? (Char.ofNat (48 + k)) = some k := by decide

theorem digitVal?_decDigit (n : Nat) : digitVal? (decDigit n) = some (n % 10) := by
  unfold decDigit
  exact digitVal?_ofNat_lt_ten (n % 10) (Nat.mod_lt _ (by omega))

theorem twoDigitVal?_twoDigits (n : Nat) (h : n ≤ 99) :
    twoDigitVal? (decDigit (n / 10)) (decDigit n) = some n := by
  unfold twoDigitVal?
  rw [digitVal?_decDigit, digitVal?_decDigit]
  show some (n / 10 % 10 * 10 + n % 10) = some n
  rw [Option.some.injEq]
  omega

theorem fourDigitVal?_fourDigits (n : Nat) (h : n ≤ 9999) :
    fourDigitVal? (decDigit (n / 1000)) (decDigit (n / 100)) (decDigit (n / 10))
      (decDigit n) = some n := by
  unfold fourDigitVal?
  rw [digitVal?_decDigit, digitVal?_decDigit, digitVal?_decDigit, digitVal?_decDigit]
  show some (n / 1000 % 10 * 1000 + n / 100 % 10 * 100 + n / 10 % 10 * 10 + n % 10) =
    some n
  rw [Option.some.injEq]
  omega

theorem daysInMonth_le_31 (y m : Nat) : daysInMonth y m ≤ 31 := by
  unfold daysInMonth
  split
  · split <;> omega
  · split <;> omega

theorem parseIso_specIso (dt : DateTime) (h : validDateTime dt) :
    parseIsoTimestamp (specIsoTimestamp dt).data = some dt := by
  obtain ⟨hy1, hy2, hm1, hm2, hd1, hd2, hh, hmi, hs⟩ := h
  have hday : dt.day ≤ 31 := le_trans hd2 (daysInMonth_le_31 dt.year dt.month)
  have hdata : (specIsoTimestamp dt).data =
      [decDigit (dt.year / 1000), decDigit (dt.year / 100), decDigit (dt.year / 10),
        decDigit dt.year, '-', decDigit (dt.month / 10), decDigit dt.month, '-',
        decDigit (dt.day / 10), decDigit dt.day, 'T', decDigit (dt.hour / 10),
        decDigit dt.hour, ':', decDigit (dt.minute / 10), decDigit dt.minute, ':',
        decDigit (dt.second / 10), decDigit dt.second, 'Z'] := by
    simp [specIsoTimestamp, fourDigits, twoDigits]
  rw [hdata]
  show (if ('-' : Char) = '-' ∧ ('-' : Char) = '-' ∧ ('T' : Char) = 'T' ∧
      (':' : Char) = ':' ∧ (':' : Char) = ':' ∧ ('Z' : Char) = 'Z' then do
    let y ← fourDigitVal? (decDigit (dt.year / 1000)) (decDigit (dt.year / 100))
      (decDigit (dt.year / 10)) (decDigit dt.year)
    let mo ← twoDigitVal? (decDigit (dt.month / 10)) (decDigit dt.month)
    let d ← twoDigitVal? (decDigit (dt.day / 10)) (decDigit dt.day)
    let h ← twoDigitVal? (decDigit (dt.hour / 10)) (decDigit dt.hour)
    let mi ← twoDigitVal? (decDigit (dt.minute / 10)) (decDigit dt.minute)
    let s ← twoDigitVal? (decDigit (dt.second / 10)) (decDigit dt.second)
    guardValid ⟨y, mo, d, h, mi, s⟩
  else none) = some dt
  rw [if_pos ⟨rfl, rfl, rfl, rfl, rfl, rfl⟩]
  rw [fourDigitVal?_fourDigits dt.year (by omega),
    twoDigitVal?_twoDigits dt.month (by omega),
    twoDigitVal?_twoDigits dt.day (by omega),
    twoDigitVal?_twoDigits dt.hour (by omega),
    twoDigitVal?_twoDigits dt.minute (by omega),
    twoDigitVal?_twoDigits dt.second (by omega)]
  show guardValid ⟨dt.year, dt.month, dt.day, dt.hour, dt.minute, dt.second⟩ = some dt
  unfold guardValid
  rw [if_pos ⟨hy1, hy2, hm1, hm2, hd1, hd2, hh, hmi, hs⟩]

/-- C7: for every raw timestamp the parser accepts, parse-then-format with the
default pattern yields the canonical ISO-8601 UTC string of the same instant
(the rendered string parses back to that very instant), and the two example
conversions of the spec hold. -/
theorem convert_roundtrip_spec :
    (∀ (raw : String) (dt : DateTime), parse_utc_timestamp raw = some dt →
      convert_raw_utc_timestamp_to_string raw defaultDateFormat =
        some (specIsoTimestamp dt) ∧
      parse_utc_timestamp (specIsoTimestamp dt) = some dt) ∧
    convert_raw_utc_timestamp_to_string "Wed, 18 Nov 2020 15:23:52 GMT"
      defaultDateFormat = some "2020-11-18T15:23:52Z" ∧
    convert_raw_utc_timestamp_to_string "Wed, 18 Nov 2020 15:23:52 GMT"
      compactDateFormat = some "20201118T152352Z" := by
  refine ⟨?_, by decide, by decide⟩
  intro raw dt h
  have hv := parse_valid h
  constructor
  · unfold convert_raw_utc_timestamp_to_string
    rw [h, Option.map_some']
    rw [format_default_eq]
  · unfold parse_utc_timestamp
    rw [parseIso_specIso dt hv]

/-- Witness for C7: the ISO example timestamp parses, and its conversion under
the default pattern is its canonical ISO rendering. -/
theorem convert_roundtrip_spec_witness :
    parse_utc_timestamp "2020-11-18T12:30:52Z" = some ⟨2020, 11, 18, 12, 30, 52⟩ ∧
    convert_raw_utc_timestamp_to_string "2020-11-18T12:30:52Z" defaultDateFormat =
      some (specIsoTimestamp ⟨2020, 11, 18, 12, 30, 52⟩) :=
  ⟨by decide, (convert_roundtrip_spec.1 "2020-11-18T12:30:52Z"
    ⟨2020, 11, 18, 12, 30, 52⟩ (by decide)).1⟩

/-- C1: with an empty request-URL query the inferred timestamp is the parsed
`Date` header reformatted to `YYYYMMDDTHHMMSSZ`; with a non-empty query it is
the query's first `=`-delimited value segment reformatted the same way, and
the `Date` header is ignored. -/
theorem infer_timestamp_spec :
    (∀ (r : HttpResponse) (dt : DateTime),
      pyUrlparseQuery r.request_url = "" →
      parse_utc_timestamp r.date_header = some dt →
      infer_timestamp_from_retrieved_response r = some (specCompactTimestamp dt)) ∧
    (∀ (r : HttpResponse) (dt : DateTime) (v : String),
      pyUrlparseQuery r.request_url ≠ "" →
      (pySplitEq (pyUrlparseQuery r.request_url)).get? 1 = some v →
      parse_utc_timestamp v = some dt →
      infer_timestamp_from_retrieved_response r = some (specCompactTimestamp dt)) ∧
    (∀ (r : HttpResponse) (d2 : String),
      pyUrlparseQuery r.request_url ≠ "" →
      infer_timestamp_from_retrieved_response (HttpResponse.mk r.request_url d2) =
        infer_timestamp_from_retrieved_response r) := by
  refine ⟨?_, ?_, ?_⟩
  · intro r dt hq hp
    unfold infer_timestamp_from_retrieved_response
    rw [if_pos hq]
    unfold convert_raw_utc_timestamp_to_string
    rw [hp, Option.map_some', format_compact_eq]
  · intro r dt v hq hv hp
    unfold infer_timestamp_from_retrieved_response
    rw [if_neg hq, hv]
    show convert_raw_utc_timestamp_to_string v compactDateFormat =
      some (specCompactTimestamp dt)
    unfold convert_raw_utc_timestamp_to_string
    rw [hp, Option.map_some', format_compact_eq]
  · intro r d2 hq
    obtain ⟨url, dh⟩ := r
    unfold infer_timestamp_from_retrieved_response
    rw [if_neg hq, if_neg hq]

/-- Witness for C1: the spec's two examples, the second with a `Date` header
unrelated to the query timestamp. -/
theorem infer_timestamp_spec_witness :
    infer_timestamp_from_retrieved_response
      (HttpResponse.mk "https://host/path" "Fri, 20 Nov 2020 11:47:40 GMT") =
      some "20201120T114740Z" ∧
    infer_timestamp_from_retrieved_response
      (HttpResponse.mk "https://host/path?dateTime=2020-11-18T12:30:52Z"
        "Sat, 21 Nov 2020 09:00:00 GMT") = some "20201118T123052Z" := by
  constructor
  · rw [infer_timestamp_spec.1
      (HttpResponse.mk "https://host/path" "Fri, 20 Nov 2020 11:47:40 GMT")
      ⟨2020, 11, 20, 11, 47, 40⟩ (by decide) (by decide)]
    decide
  · rw [infer_timestamp_spec.2.1
      (HttpResponse.mk "https://host/path?dateTime=2020-11-18T12:30:52Z"
        "Sat, 21 Nov 2020 09:00:00 GMT")
      ⟨2020, 11, 18, 12, 30, 52⟩ "2020-11-18T12:30:52Z"
      (by decide) (by decide) (by decide)]
    decide

theorem pyReplace3A_cons_ne {c : Char} (l : List Char) (h : c ≠ '%') :
    pyReplace3A (c :: l) = c :: pyReplace3A l := by
  rw [pyReplace3A.eq_def]
  split
  · next rest heq =>
    injection heq with h1 _
    exact absurd h1 h
  · next c2 rest heq =>
    injection heq with h1 h2
    rw [h1, h2]
  · next heq => simp at heq

theorem pyReplace3A_append_no_percent (p l : List Char) (hp : ∀ c ∈ p, c ≠ '%') :
    pyReplace3A (p ++ l) = p ++ pyReplace3A l := by
  induction p with
  | nil => simp
  | cons c t ih =>
    rw [List.cons_append, pyReplace3A_cons_ne _ (hp c (by simp)),
      ih fun c2 hc2 => hp c2 (by simp [hc2]), List.cons_append]

theorem quotePlusChar_iso {c : Char} (h : isIsoTimestampChar c = true) :
    quotePlusChar c = if c = ':' then ['%', '3', 'A'] else [c] := by
  unfold isIsoTimestampChar at h
  rw [decide_eq_true_eq] at h
  rcases h with hd | rfl | rfl | rfl | rfl
  · have hne : c ≠ ':' := by
      intro hcc
      subst hcc
      exact absurd hd (by decide)
    rw [if_neg hne]
    unfold quotePlusChar
    rw [if_pos]
    show isUrlSafeChar c = true
    unfold isUrlSafeChar
    rw [decide_eq_true_eq]
    exact Or.inr (Or.inr (Or.inl hd))
  · decide
  · decide
  · decide
  · decide

theorem pyReplace3A_quotePlus_iso (l : List Char)
    (h : ∀ c ∈ l, isIsoTimestampChar c = true) :
    pyReplace3A (l.map quotePlusChar).flatten = l := by
  induction l with
  | nil => rfl
  | cons c t ih =>
    rw [List.map_cons, List.flatten_cons, quotePlusChar_iso (h c (by simp))]
    by_cases hc : c = ':'
    · subst hc
      rw [if_pos rfl]
      show pyReplace3A ('%' :: '3' :: 'A' :: (t.map quotePlusChar).flatten) = ':' :: t
      rw [show ∀ l2, pyReplace3A ('%' :: '3' :: 'A' :: l2) = ':' :: pyReplace3A l2
        from fun _ => rfl]
      rw [ih fun c2 hc2 => h c2 (by simp [hc2])]
    · have hcp : c ≠ '%' := by
        have hio := h c (by simp)
        unfold isIsoTimestampChar at hio
        rw [decide_eq_true_eq] at hio
        intro hcpc
        subst hcpc
        rcases hio with hd | h1 | h1 | h1 | h1
        · exact absurd hd (by decide)
        · exact absurd h1 (by decide)
        · exact absurd h1 (by decide)
        · exact absurd h1 hc
        · exact absurd h1 (by decide)
      rw [if_neg hc]
      show pyReplace3A (c :: (t.map quotePlusChar).flatten) = c :: t
      rw [pyReplace3A_cons_ne _ hcp, ih fun c2 hc2 => h c2 (by simp [hc2])]

/-- C8: on every string over the ISO-8601 timestamp alphabet (so on every
ISO-8601-formatted UTC timestamp), the query builder returns `dateTime=`
followed by the unchanged timestamp — the percent-encoding of the colons is
reversed — and the spec's example holds. -/
theorem prepare_query_spec :
    (∀ s : String, (∀ c ∈ s.data, isIsoTimestampChar c = true) →
      prepare_timestamp_query_string s = "dateTime=" ++ s) ∧
    prepare_timestamp_query_string "2020-11-20T16:09:40Z" =
      "dateTime=2020-11-20T16:09:40Z" := by
  refine ⟨?_, by decide⟩
  intro s hs
  unfold prepare_timestamp_query_string pyUrlencodeSingle
  apply String.ext
  show pyReplace3A ((quotePlus "dateTime" ++ "=" ++ quotePlus s)).data =
    ("dateTime=" ++ s).data
  have h1 : ((quotePlus "dateTime" ++ "=" ++ quotePlus s)).data =
      "dateTime=".data ++ (s.data.map quotePlusChar).flatten := by
    rw [String.data_append, String.data_append]
    rw [show (quotePlus "dateTime").data ++ "=".data = "dateTime=".data from by decide]
    rfl
  rw [h1, pyReplace3A_append_no_percent _ _ (by decide),
    pyReplace3A_quotePlus_iso s.data hs]
  exact (String.data_append _ _).symm

/-- Witness for C8: a concrete ISO timestamp is over the ISO alphabet and maps
to the plain `dateTime=` query string. -/
theorem prepare_query_spec_witness :
    (∀ c ∈ "2020-11-21T00:00:00Z".data, isIsoTimestampChar c = true) ∧
    prepare_timestamp_query_string "2020-11-21T00:00:00Z" =
      "dateTime=" ++ "2020-11-21T00:00:00Z" :=
  ⟨by decide, prepare_query_spec.1 "2020-11-21T00:00:00Z" (by decide)⟩

end WatchlistApiClient
